import Mathlib

/-!
Shallow embedding of `python_parser.py` (class `BankTransactionParser`), the
classification-and-extraction engine for bank push notifications.

Modelling conventions:
* A Python string is a `List Char`; `str.lower()` / `re.IGNORECASE` use
  `pyToLower`, which covers the ASCII letters and the Cyrillic block the
  parser's fixed keyword tables use.
* The regex character class `\s` is modelled by `pyIsSpace` (its ASCII
  fragment), `\d` by `Char.isDigit` (its ASCII fragment).
* Each regex of the source is modelled by a dedicated positional matcher;
  `re.search` is the matcher tried at every position left to right
  (`searchAux`), `re.finditer` the non-overlapping scan `findAllAC`.
  Greedy/lazy quantifier semantics are implemented directly in the matchers.
* Python `float(...)` on the normalizer's output is `pyFloat?`, restricted to
  the plain decimal literals `digits`, `digits.digits`, `digits.`, `.digits`:
  the only shapes the parser's regexes can feed it (a matched token begins and
  ends with a digit, so the sign/exponent/whitespace forms `float` also
  accepts are never exercised).  A `ValueError` (Python's number-format
  failure) is `none`, and an uncaught exception propagating out of `parse`
  makes the whole result `none` - the source has no `try/except`.
* Decimal values are exact rationals (`mkRat`).
-/

namespace BankParser

/-- ASCII fragment of the character set Python's `\s` / `str.strip` match. -/
def pyIsSpace (c : Char) : Bool :=
  c = ' ' || c = '\t' || c = '\n' || c = '\r' || c = '\x0b' || c = '\x0c'

/-- Case folding used by `str.lower()` / `re.IGNORECASE`, restricted to the
ASCII letters and the Cyrillic block (U+0400-U+042F) appearing in the
parser's keyword tables and inputs. -/
def pyToLower (c : Char) : Char :=
  if 'A' ≤ c && c ≤ 'Z' then Char.ofNat (c.toNat + 32)
  else if 0x400 ≤ c.toNat && c.toNat ≤ 0x40F then Char.ofNat (c.toNat + 0x50)
  else if 0x410 ≤ c.toNat && c.toNat ≤ 0x42F then Char.ofNat (c.toNat + 0x20)
  else c

/-- Inverse folding for `str.upper()`, same restriction. -/
def pyToUpper (c : Char) : Char :=
  if 'a' ≤ c && c ≤ 'z' then Char.ofNat (c.toNat - 32)
  else if 0x450 ≤ c.toNat && c.toNat ≤ 0x45F then Char.ofNat (c.toNat - 0x50)
  else if 0x430 ≤ c.toNat && c.toNat ≤ 0x44F then Char.ofNat (c.toNat - 0x20)
  else c

/-- `str.lower()` over a whole string. -/
def lowerL (cs : List Char) : List Char := cs.map pyToLower

/-- `needle.isPrefixOf hay` for chars, written out so its lemmas stay local. -/
def pfx : List Char → List Char → Bool
  | [], _ => true
  | _ :: _, [] => false
  | a :: as, b :: bs => a == b && pfx as bs

/-- Python's substring test `needle in hay`. -/
def hasSub (needle : List Char) : List Char → Bool
  | [] => needle.isEmpty
  | c :: t => pfx needle (c :: t) || hasSub needle t

/-- `kw in cl` where `cl` is an already lower-cased content string. -/
def contains_in (cl : List Char) (kw : String) : Bool :=
  hasSub kw.toList cl

/-- `str.strip()`: drop whitespace from both ends. -/
def pyStrip (cs : List Char) : List Char :=
  ((cs.dropWhile pyIsSpace).reverse.dropWhile pyIsSpace).reverse

/-- Value of a list of ASCII digits. -/
def digitsToNat (ds : List Char) : Nat :=
  ds.foldl (fun a c => a * 10 + (c.toNat - 48)) 0

/-- Model of Python `float(...)` on plain decimal literals (see the header
comment); any other string raises `ValueError`, modelled as `none`. -/
def pyFloat? (cs : List Char) : Option ℚ :=
  let intd := cs.takeWhile Char.isDigit
  let rest := cs.dropWhile Char.isDigit
  match rest with
  | [] => if intd.isEmpty then none else some (mkRat (digitsToNat intd) 1)
  | '.' :: fr =>
    if fr.all Char.isDigit && !(intd.isEmpty && fr.isEmpty) then
      some (mkRat (digitsToNat intd * 10 ^ fr.length + digitsToNat fr) (10 ^ fr.length))
    else none
  | _ => none

/-- `number_str.replace(' ', '')`. -/
def stripSpaces (cs : List Char) : List Char :=
  cs.filter (fun c => c ≠ ' ')

/-- `.replace(',', '.')`. -/
def commaToDot (cs : List Char) : List Char :=
  cs.map (fun c => if c = ',' then '.' else c)

/-- `BankTransactionParser._normalize_number`: remove spaces, turn commas
into dots, convert with `float`. -/
def normalize_number (cs : List Char) : Option ℚ :=
  pyFloat? (commaToDot (stripSpaces cs))

/-- Reference normalizer written from the spec's words: "strip all space
characters, then replace `,` with `.`, then parse as a decimal value"
(comma always a decimal separator, never a thousands separator). -/
def normalize_ref (cs : List Char) : Option ℚ :=
  let spaceFree := stripSpaces cs
  let dotted := commaToDot spaceFree
  pyFloat? dotted

/-- Consume `(?:\s+\d+)*` greedily; returns (consumed, rest).  `fuel` bounds
the recursion and is always called with at least the input length. -/
def amountGroups : Nat → List Char → List Char × List Char
  | 0, cs => ([], cs)
  | fuel + 1, cs =>
    let sp := cs.takeWhile pyIsSpace
    let r1 := cs.dropWhile pyIsSpace
    let dg := r1.takeWhile Char.isDigit
    let r2 := r1.dropWhile Char.isDigit
    if sp.isEmpty || dg.isEmpty then ([], cs)
    else (sp ++ dg ++ (amountGroups fuel r2).1, (amountGroups fuel r2).2)

/-- The amount pattern `(\d+(?:\s+\d+)*(?:[.,]\d+)?|\d+)` matched greedily at
the start of `cs`; returns (captured token, rest). -/
def matchAmount (cs : List Char) : Option (List Char × List Char) :=
  let d1 := cs.takeWhile Char.isDigit
  if d1.isEmpty then none
  else
    let r1 := cs.dropWhile Char.isDigit
    let g := (amountGroups r1.length r1).1
    let r2 := (amountGroups r1.length r1).2
    match r2 with
    | sep :: rest =>
      if sep = '.' || sep = ',' then
        let fr := rest.takeWhile Char.isDigit
        if fr.isEmpty then some (d1 ++ g, r2)
        else some (d1 ++ g ++ sep :: fr, rest.dropWhile Char.isDigit)
      else some (d1 ++ g, r2)
    | [] => some (d1 ++ g, [])

/-- Match a case-insensitive literal (given lower-case); returns
(original-case slice, rest). -/
def stripPrefixCI : List Char → List Char → Option (List Char × List Char)
  | [], cs => some ([], cs)
  | _ :: _, [] => none
  | p :: ps, c :: cs =>
    if pyToLower c = p then
      match stripPrefixCI ps cs with
      | some (m, r) => some (c :: m, r)
      | none => none
    else none

/-- The currency pattern `(UAH|USD|EUR|GBP|PLN)` with `IGNORECASE`. -/
def matchCurrency (cs : List Char) : Option (List Char × List Char) :=
  match stripPrefixCI "uah".toList cs with
  | some r => some r
  | none =>
    match stripPrefixCI "usd".toList cs with
    | some r => some r
    | none =>
      match stripPrefixCI "eur".toList cs with
      | some r => some r
      | none =>
        match stripPrefixCI "gbp".toList cs with
        | some r => some r
        | none => stripPrefixCI "pln".toList cs

/-- `AMOUNT \s* CURRENCY` at the current position; returns
((amount token, currency slice), rest). -/
def matchAmountCur (cs : List Char) : Option ((List Char × List Char) × List Char) :=
  match matchAmount cs with
  | none => none
  | some (tok, r1) =>
    match matchCurrency (r1.dropWhile pyIsSpace) with
    | none => none
    | some (cur, r2) => some ((tok, cur), r2)

/-- `AMOUNT(CURRENCY)` with no gap, anchored (`^`), used on stripped lines. -/
def matchACNoSp (cs : List Char) : Bool :=
  match matchAmount cs with
  | none => false
  | some (_, r1) => (matchCurrency r1).isSome

/-- `re.search`: try a positional matcher at every start, left to right. -/
def searchAux {α : Type} (m : List Char → Option α) : List Char → Option α
  | [] => m []
  | c :: cs =>
    match m (c :: cs) with
    | some r => some r
    | none => searchAux m cs

/-- Try a function on alternatives in order (regex alternation). -/
def tryAlts {α : Type} (f : String → Option α) : List String → Option α
  | [] => none
  | k :: ks =>
    match f k with
    | some r => some r
    | none => tryAlts f ks

/-- One alternative of `(?:kw1|..)\s+AMOUNT\s*CURRENCY` (`plusSep = true`) or
`(?:kw1|..)\s*AMOUNT\s*CURRENCY` (`plusSep = false`) at a position. -/
def matchKwAC1 (kw : String) (plusSep : Bool) (cs : List Char) : Option (List Char × List Char) :=
  match stripPrefixCI kw.toList cs with
  | none => none
  | some (_, r1) =>
    if plusSep && (r1.takeWhile pyIsSpace).isEmpty then none
    else
      match matchAmountCur (r1.dropWhile pyIsSpace) with
      | some ((tok, cur), _) => some (tok, cur)
      | none => none

/-- `re.search` of a keyword-alternation amount pattern. -/
def searchKwsAC (kws : List String) (plusSep : Bool) (cs : List Char) : Option (List Char × List Char) :=
  searchAux (fun p => tryAlts (fun kw => matchKwAC1 kw plusSep p) kws) cs

/-- `re.finditer(AMOUNT\s*CURRENCY)` with match start positions,
non-overlapping, scanning from each match's end. -/
def findAllACFuel : Nat → Nat → List Char → List (Nat × List Char × List Char)
  | 0, _, _ => []
  | fuel + 1, pos, cs =>
    match matchAmountCur cs with
    | some ((tok, cur), rest) =>
      (pos, tok, cur) :: findAllACFuel fuel (pos + (cs.length - rest.length)) rest
    | none =>
      match cs with
      | [] => []
      | _ :: t => findAllACFuel fuel (pos + 1) t

def findAllAC (cs : List Char) : List (Nat × List Char × List Char) :=
  findAllACFuel (cs.length + 1) 0 cs

/-- A `[*0-9]+` token at the current position; returns (token, rest). -/
def matchCardToken (cs : List Char) : Option (List Char × List Char) :=
  let t := cs.takeWhile (fun c => c = '*' || c.isDigit)
  if t.isEmpty then none else some (t, cs.dropWhile (fun c => c = '*' || c.isDigit))

/-- `картка:\s*([*0-9]+)` at a position. -/
def matchKartkaColon (cs : List Char) : Option (List Char) :=
  match stripPrefixCI "картка:".toList cs with
  | none => none
  | some (_, r1) => (matchCardToken (r1.dropWhile pyIsSpace)).map (·.1)

/-- `na kartku\s+([*0-9]+)` at a position. -/
def matchNaKartku (cs : List Char) : Option (List Char) :=
  match stripPrefixCI "na kartku".toList cs with
  | none => none
  | some (_, r1) =>
    if (r1.takeWhile pyIsSpace).isEmpty then none
    else (matchCardToken (r1.dropWhile pyIsSpace)).map (·.1)

/-- `(?:kw1|..)\s*:?\s*([*0-9]+)` at a position (blocking/outgoing card). -/
def matchCardKw (alts : List String) (cs : List Char) : Option (List Char) :=
  tryAlts (fun kw =>
    match stripPrefixCI kw.toList cs with
    | none => none
    | some (_, r1) =>
      let r2 := r1.dropWhile pyIsSpace
      let r3 := match r2 with
        | ':' :: t => t
        | _ => r2
      (matchCardToken (r3.dropWhile pyIsSpace)).map (·.1)) alts

/-- `([*0-9]{4,})` at a position (no IGNORECASE needed). -/
def matchCardRun4 (cs : List Char) : Option (List Char) :=
  let t := cs.takeWhile (fun c => c = '*' || c.isDigit)
  if 4 ≤ t.length then some t else none

/-- `([*0-9]+)\s*$` at a position (trailing card token of the title). -/
def matchCardEnd (cs : List Char) : Option (List Char) :=
  match matchCardToken cs with
  | none => none
  | some (t, r) => if (r.dropWhile pyIsSpace).isEmpty then some t else none

/-- `perekaz:\s*([A-Z0-9]+)` with IGNORECASE at a position. -/
def matchPerekazCp (cs : List Char) : Option (List Char) :=
  match stripPrefixCI "perekaz:".toList cs with
  | none => none
  | some (_, r1) =>
    let t := (r1.dropWhile pyIsSpace).takeWhile (fun c => c.isAlpha || c.isDigit)
    if t.isEmpty then none else some t

/-- `-\s*\d+` at a position. -/
def matchNegNum (cs : List Char) : Option Unit :=
  match cs with
  | '-' :: r =>
    if ((r.dropWhile pyIsSpace).takeWhile Char.isDigit).isEmpty then none else some ()
  | _ => none

/-- `-\s*AMOUNT\s*CURRENCY` at a position (outgoing title amount). -/
def matchNegAC (cs : List Char) : Option (List Char × List Char) :=
  match cs with
  | '-' :: r =>
    match matchAmountCur (r.dropWhile pyIsSpace) with
    | some ((tok, cur), _) => some (tok, cur)
    | none => none
  | _ => none

/-- A lazy `cls+?` group stopped at the first point where `term` accepts the
rest; `none` when no stop point is reachable. -/
def lazyScanTerm (cls : Char → Bool) (term : List Char → Bool) : List Char → Option (List Char × List Char)
  | [] => none
  | c :: cs =>
    if cls c then
      if term cs then some ([c], cs)
      else
        match lazyScanTerm cls term cs with
        | some (w, r) => some (c :: w, r)
        | none => none
    else none

/-- Character class `[A-Z0-9\s*\-\.]` with IGNORECASE. -/
def endCpClass (c : Char) : Bool :=
  c.isAlpha || c.isDigit || pyIsSpace c || c = '*' || c = '-' || c = '.'

/-- `re.match(r'^([A-Z][A-Z0-9\s*\-\.]+?)(?:\.|$)')` (incoming trailing
counterparty after the `Dostupno` section). -/
def matchEndCp (cs : List Char) : Option (List Char) :=
  match cs with
  | [] => none
  | c :: rest =>
    if c.isAlpha then
      match lazyScanTerm endCpClass (fun r => r.isEmpty || r.headD ' ' = '.') rest with
      | some (w, _) => some (c :: w)
      | none => none
    else none

/-- `dostupno\s+AMOUNT\s*CURRENCY\.\s+` at a position, returning the text
after the match end (`content[match.end():]`). -/
def matchDostupnoDot (cs : List Char) : Option (List Char) :=
  match stripPrefixCI "dostupno".toList cs with
  | none => none
  | some (_, r1) =>
    if (r1.takeWhile pyIsSpace).isEmpty then none
    else
      match matchAmountCur (r1.dropWhile pyIsSpace) with
      | none => none
      | some (_, r3) =>
        match r3 with
        | '.' :: r4 =>
          if (r4.takeWhile pyIsSpace).isEmpty then none
          else some (r4.dropWhile pyIsSpace)
        | _ => none

/-- Terminator alternative `\s+\d+\.\d+\.\d+` (a date token). -/
def termDate (cs : List Char) : Bool :=
  if (cs.takeWhile pyIsSpace).isEmpty then false
  else
    let r := cs.dropWhile pyIsSpace
    let d1 := r.takeWhile Char.isDigit
    let r1 := r.dropWhile Char.isDigit
    if d1.isEmpty then false
    else
      match r1 with
      | '.' :: r2 =>
        let d2 := r2.takeWhile Char.isDigit
        let r3 := r2.dropWhile Char.isDigit
        if d2.isEmpty then false
        else
          match r3 with
          | '.' :: r4 => !(r4.takeWhile Char.isDigit).isEmpty
          | _ => false
      | _ => false

/-- Terminator alternative `\s+(?:kartka|картка|card)`. -/
def termCardKw (cs : List Char) : Bool :=
  if (cs.takeWhile pyIsSpace).isEmpty then false
  else
    let r := cs.dropWhile pyIsSpace
    (stripPrefixCI "kartka".toList r).isSome || (stripPrefixCI "картка".toList r).isSome ||
      (stripPrefixCI "card".toList r).isSome

/-- Character class `[A-Z0-9\s*\-]` with IGNORECASE. -/
def bcpClass (c : Char) : Bool :=
  c.isAlpha || c.isDigit || pyIsSpace c || c = '*' || c = '-'

/-- Blocking counterparty pattern
`(?:blokuvannia|блокування|blocking|reject):\s*([A-Z0-9\s*\-]+?)(?:\s+\d+\.\d+\.\d+|\s+(?:kartka|картка|card))`
at a position. -/
def matchBlockCp1 (cs : List Char) : Option (List Char) :=
  tryAlts (fun kw =>
    match stripPrefixCI (kw ++ ":").toList cs with
    | none => none
    | some (_, r1) =>
      match lazyScanTerm bcpClass (fun r => termDate r || termCardKw r) (r1.dropWhile pyIsSpace) with
      | some (w, _) => some w
      | none => none) ["blokuvannia", "блокування", "blocking", "reject"]

/-- One keyword of the fallback blocking counterparty loop:
`{kw}:\s*([^0-9]+?)(?:\s+\d+\.\d+\.\d+|\s+(?:kartka|картка|card)|$)`. -/
def matchBlockCp2 (kw : String) (cs : List Char) : Option (List Char) :=
  match stripPrefixCI (kw ++ ":").toList cs with
  | none => none
  | some (_, r1) =>
    match lazyScanTerm (fun c => !c.isDigit)
        (fun r => termDate r || termCardKw r || r.isEmpty) (r1.dropWhile pyIsSpace) with
    | some (w, _) => some w
    | none => none

/-- The `for keyword in [...]` fallback loop of `_parse_blocking`'s
counterparty extraction. -/
def blocking_cp_fallback (content : List Char) : List String → Option (List Char)
  | [] => none
  | kw :: ks =>
    if contains_in (lowerL content) kw then
      match searchAux (matchBlockCp2 kw) content with
      | some w =>
        let c := pyStrip w
        if 2 < c.length then some c else blocking_cp_fallback content ks
      | none => blocking_cp_fallback content ks
    else blocking_cp_fallback content ks

/-- `content.split('\n')`. -/
def splitNl : List Char → List (List Char)
  | [] => [[]]
  | c :: cs =>
    let r := splitNl cs
    if c = '\n' then [] :: r
    else
      match r with
      | h :: t => (c :: h) :: t
      | [] => [[c]]

/-- `re.match(r'^\d+[-.]\d+[-.]\d+')` (date-looking line). -/
def dateLineMatch (cs : List Char) : Bool :=
  let d1 := cs.takeWhile Char.isDigit
  let r1 := cs.dropWhile Char.isDigit
  if d1.isEmpty then false
  else
    match r1 with
    | s1 :: r2 =>
      if s1 = '-' || s1 = '.' then
        let d2 := r2.takeWhile Char.isDigit
        let r3 := r2.dropWhile Char.isDigit
        if d2.isEmpty then false
        else
          match r3 with
          | s2 :: r4 =>
            (s2 = '-' || s2 = '.') && !(r4.takeWhile Char.isDigit).isEmpty
          | [] => false
      else false
    | [] => false

/-- `re.search(r'^\d+\.\d+')` (bare decimal at line start). -/
def decLineMatch (cs : List Char) : Bool :=
  let d1 := cs.takeWhile Char.isDigit
  let r1 := cs.dropWhile Char.isDigit
  if d1.isEmpty then false
  else
    match r1 with
    | '.' :: r2 => !(r2.takeWhile Char.isDigit).isEmpty
    | _ => false

/-- The 3-line lookahead window after an amount line: skip blank, date-like,
card-info, balance-info and bare-decimal lines, accept the first remaining
line longer than two characters. -/
def scanWindow : List (List Char) → Nat → Option (List Char)
  | _, 0 => none
  | [], _ => none
  | l :: ls, k + 1 =>
    let nl := pyStrip l
    if nl.isEmpty then scanWindow ls k
    else if dateLineMatch nl || contains_in (lowerL nl) "картка:" ||
        contains_in (lowerL nl) "доступно:" || decLineMatch nl then scanWindow ls k
    else if 2 < nl.length then some nl
    else scanWindow ls k

/-- Find the first line matching `^AMOUNT(CURRENCY)` and scan its lookahead
window; scanning stops at that first amount line. -/
def find_amount_line : List (List Char) → Option (List Char)
  | [] => none
  | l :: ls =>
    if matchACNoSp (pyStrip l) then scanWindow ls 3
    else find_amount_line ls

/-- The `finditer` loop of the line-oriented incoming format: first
amount-currency pair whose preceding 20 characters do not contain
`"доступно"`. -/
def find_amount_ctx (content : List Char) : Option (List Char × List Char) :=
  (findAllAC content).findSome? fun m =>
    let ctx := lowerL ((content.take m.1).drop (m.1 - 20))
    if contains_in ctx "доступно" then none else some (m.2.1, m.2.2)

/-- The seven-field output record (`result` dictionary of `parse`). -/
structure Record where
  bank_account_balance : Option ℚ
  bank_account_currency : Option String
  bank_account_details : Option String
  operation_amount : Option ℚ
  operation_currency : Option String
  operation_type : Option String
  counterparty_details : Option String
deriving DecidableEq

/-- The initial `result` dictionary: every field `None`. -/
def initRecord : Record :=
  ⟨none, none, none, none, none, none, none⟩

/-- `result["operation_amount"] = normalize(...); result["operation_currency"] = ...`
(the two-line pattern every routine uses); a `ValueError` escapes. -/
def setAC (r : Record) (tok cur : List Char) : Option Record :=
  match normalize_number tok with
  | none => none
  | some v => some { r with operation_amount := some v, operation_currency := some (String.mk cur) }

/-- Same for `bank_account_balance` / `bank_account_currency`. -/
def setBal (r : Record) (tok cur : List Char) : Option Record :=
  match normalize_number tok with
  | none => none
  | some v => some { r with bank_account_balance := some v, bank_account_currency := some (String.mk cur) }

/-- `if match: set amount pair` over an optional match. -/
def applyAC (r : Record) (m : Option (List Char × List Char)) : Option Record :=
  match m with
  | none => some r
  | some (t, c) => setAC r t c

def applyBal (r : Record) (m : Option (List Char × List Char)) : Option Record :=
  match m with
  | none => some r
  | some (t, c) => setBal r t c

def applyCard (r : Record) (m : Option (List Char)) : Record :=
  match m with
  | none => r
  | some t => { r with bank_account_details := some (String.mk t) }

/-- `if found: result["counterparty_details"] = ...` over an optional match. -/
def setCp (r : Record) (m : Option (List Char)) : Record :=
  match m with
  | none => r
  | some w => { r with counterparty_details := some (String.mk w) }

/-- Keyword table of `_is_balance_info_only`. -/
def operation_keywords : List String :=
  ["переказ", "perekaz", "transfer",
   "blokuvannia", "блокування", "blocking",
   "сума", "suma", "amount", "сумма",
   "надходження", "incoming",
   "зняття", "снятие", "withdrawal",
   "платіж", "платеж", "payment"]

/-- `BankTransactionParser._is_balance_info_only`. -/
def is_balance_info_only (content title : List Char) : Bool :=
  let content_lower := lowerL content
  if contains_in content_lower "баланс:" && !contains_in content_lower "переказ" then true
  else if contains_in content_lower "баланс" &&
      !(operation_keywords.any (fun kw => contains_in content_lower kw)) then true
  else false

/-- Keyword table of `_is_incoming`. -/
def incoming_keywords : List String :=
  ["perekaz:", "perekaz", "надходження", "поступление", "incoming",
   "пополнение", "поповнення", "replenishment", "deposit", "депозит"]

/-- `BankTransactionParser._is_incoming`. -/
def is_incoming (content title : List Char) : Bool :=
  let content_lower := lowerL content
  let title_lower := lowerL title
  incoming_keywords.any (fun kw => contains_in content_lower kw || contains_in title_lower kw)

/-- Keyword table of `_is_blocking`. -/
def blocking_keywords : List String :=
  ["blokuvannia:", "blokuvannya", "блокування", "блокировка", "блокирование",
   "blocking", "block", "reject", "відхилення", "отклонение"]

/-- `BankTransactionParser._is_blocking`. -/
def is_blocking (content : List Char) : Bool :=
  blocking_keywords.any (fun kw => contains_in (lowerL content) kw)

/-- Keyword table of `_is_outgoing`. -/
def outgoing_keywords : List String :=
  ["переказ з картки на картку", "переказ з карты на карту", "transfer from card to card",
   "зняття", "снятие", "withdrawal", "виведення", "вывод", "outgoing", "out",
   "списання", "списание", "debit", "платіж", "платеж", "payment", "оплата", "оплата"]

/-- `BankTransactionParser._is_outgoing`. -/
def is_outgoing (content title : List Char) : Bool :=
  let content_lower := lowerL content
  let title_lower := lowerL title
  if (searchAux matchNegNum title_lower).isSome then true
  else outgoing_keywords.any (fun kw => contains_in content_lower kw || contains_in title_lower kw)

/-- `BankTransactionParser._parse_balance_info`. -/
def parse_balance_info (content title : List Char) (result : Record) : Option Record :=
  let result := { result with
    operation_type := some "balance_info",
    operation_amount := none, operation_currency := none, counterparty_details := none }
  (applyBal result (searchKwsAC ["баланс:"] false content)).bind fun result =>
  some (applyCard result (searchAux matchKartkaColon content))

/-- `BankTransactionParser._parse_incoming`. -/
def parse_incoming (content title : List Char) (result : Record) : Option Record :=
  let result := { result with operation_type := some "in" }
  if contains_in (lowerL content) "perekaz:" then
    let primary := searchAux matchPerekazCp content
    let endcp : Option (List Char) :=
      if primary.isNone then
        match searchAux matchDostupnoDot content with
        | some after =>
          match matchEndCp (pyStrip after) with
          | some g =>
            let ec := pyStrip g
            if 2 < ec.length && !(ec.map pyToUpper == "EXAMPLE.COM".toList) &&
                !(ec.map pyToUpper == "EXAMPLE".toList) then some ec
            else none
          | none => none
        | none => none
      else none
    let result := setCp (setCp result primary) endcp
    (applyAC result (searchKwsAC ["na sumu"] true content)).bind fun result =>
    (applyBal result (searchKwsAC ["dostupno"] true content)).bind fun result =>
    some (applyCard result (searchAux matchNaKartku content))
  else
    if contains_in (lowerL title) "надходження" || contains_in (lowerL content) "доступно:" ||
        contains_in (lowerL content) "надходження:" then
      let am0 : Option (List Char × List Char) :=
        if contains_in (lowerL content) "надходження:" then
          searchKwsAC ["надходження:"] false content
        else none
      let am1 := match am0 with
        | some x => some x
        | none =>
          match matchAmountCur content with
          | some ((t, c), _) => some (t, c)
          | none => none
      let amount_match := match am1 with
        | some x => some x
        | none => find_amount_ctx content
      (applyAC result amount_match).bind fun result =>
      (applyBal result (searchKwsAC ["доступно:"] false content)).bind fun result =>
      let result := applyCard result (searchAux matchKartkaColon content)
      some (setCp result (find_amount_line (splitNl content)))
    else
      some result

/-- `BankTransactionParser._parse_blocking`. -/
def parse_blocking (content : List Char) (result : Record) : Option Record :=
  let result := { result with operation_type := some "reject" }
  let amount_match :=
    match searchKwsAC ["suma", "сума", "amount", "сумма"] true content with
    | some x => some x
    | none =>
      let all_amounts := findAllAC content
      if 2 ≤ all_amounts.length then
        all_amounts.head?.map (fun m => (m.2.1, m.2.2))
      else none
  (applyAC result amount_match).bind fun result =>
  let balance_match :=
    match searchKwsAC ["dostupno", "доступно", "available"] true content with
    | some x => some x
    | none => searchKwsAC ["баланс:", "balance:"] false content
  (applyBal result balance_match).bind fun result =>
  let card_match :=
    match searchAux (matchCardKw ["kartka", "картка", "card", "карта"]) content with
    | some t => some t
    | none => searchAux matchCardRun4 content
  let result := applyCard result card_match
  let cp_choice :=
    match searchAux matchBlockCp1 content with
    | some w => some (pyStrip w)
    | none => blocking_cp_fallback content ["blokuvannia", "блокування", "blocking", "reject"]
  some (setCp result cp_choice)

/-- `BankTransactionParser._parse_outgoing`. -/
def parse_outgoing (content title : List Char) (result : Record) : Option Record :=
  let result := { result with operation_type := some "out" }
  let branch :=
    if (searchAux matchNegNum title).isSome then
      (applyAC result (searchAux matchNegAC title)).bind fun result =>
      (applyBal result (searchKwsAC ["доступно", "available"] true title)).bind fun result =>
      some (applyCard result (searchAux matchCardEnd title))
    else
      (applyAC result ((searchAux matchAmountCur content).map (fun m => (m.1.1, m.1.2)))).bind fun result =>
      (applyBal result (searchKwsAC ["доступно", "available", "баланс", "balance"] true content)).bind fun result =>
      let card_match :=
        match searchAux (matchCardKw ["картка", "card", "карта"]) content with
        | some t => some t
        | none => searchAux matchCardRun4 content
      some (applyCard result card_match)
  branch.map fun result => { result with counterparty_details := none }

/-- `BankTransactionParser._parse_generic`. -/
def parse_generic (content title : List Char) (result : Record) : Option Record :=
  let amount_matches := findAllAC content
  let step :=
    match amount_matches with
    | [] => some result
    | m :: _ =>
      (setAC result m.2.1 m.2.2).bind fun result =>
      if 1 < amount_matches.length then
        match amount_matches.getLast? with
        | some ml => setBal result ml.2.1 ml.2.2
        | none => some result
      else some result
  step.map fun result => applyCard result (searchAux matchCardRun4 content)

/-- `BankTransactionParser.parse` - the core entry point.  `app_name` is
accepted and ignored, exactly as in the source.  A `none` result models an
uncaught `ValueError` escaping from `float` during extraction. -/
def parse (text_content app_name title : List Char) : Option Record :=
  let result := initRecord
  if is_balance_info_only text_content title then
    parse_balance_info text_content title result
  else if is_incoming text_content title then
    parse_incoming text_content title result
  else if is_blocking text_content then
    parse_blocking text_content result
  else if is_outgoing text_content title then
    parse_outgoing text_content title result
  else
    parse_generic text_content title result

/-- The amount/currency pairing invariant of a record. -/
def pairedA (r : Record) : Prop :=
  r.operation_amount.isSome = r.operation_currency.isSome

/-- The balance/currency pairing invariant of a record. -/
def pairedB (r : Record) : Prop :=
  r.bank_account_balance.isSome = r.bank_account_currency.isSome

/-! ### Helper lemmas -/

theorem pfx_trans (a : List Char) : ∀ b c, pfx a b = true → pfx b c = true → pfx a c = true := by
  induction a with
  | nil => intro b c _ _; rfl
  | cons x xs ih =>
    intro b c h1 h2
    cases b with
    | nil => simp [pfx] at h1
    | cons y ys =>
      cases c with
      | nil => simp [pfx] at h2
      | cons z zs =>
        simp only [pfx, Bool.and_eq_true, beq_iff_eq] at h1 h2 ⊢
        exact ⟨h1.1.trans h2.1, ih ys zs h1.2 h2.2⟩

theorem hasSub_mono (n1 n2 : List Char) (hp : pfx n1 n2 = true) :
    ∀ hay, hasSub n2 hay = true → hasSub n1 hay = true := by
  intro hay
  induction hay with
  | nil =>
    intro h2
    cases n2 with
    | nil =>
      cases n1 with
      | nil => rfl
      | cons x xs => simp [pfx] at hp
    | cons y ys => simp [hasSub, List.isEmpty] at h2
  | cons c t ih =>
    intro h2
    simp only [hasSub, Bool.or_eq_true] at h2 ⊢
    rcases h2 with h2 | h2
    · exact Or.inl (pfx_trans n1 n2 (c :: t) hp h2)
    · exact Or.inr (ih h2)

@[simp] theorem setCp_balance (r : Record) (m : Option (List Char)) :
    (setCp r m).bank_account_balance = r.bank_account_balance := by cases m <;> rfl

@[simp] theorem setCp_bcur (r : Record) (m : Option (List Char)) :
    (setCp r m).bank_account_currency = r.bank_account_currency := by cases m <;> rfl

@[simp] theorem setCp_details (r : Record) (m : Option (List Char)) :
    (setCp r m).bank_account_details = r.bank_account_details := by cases m <;> rfl

@[simp] theorem setCp_amount (r : Record) (m : Option (List Char)) :
    (setCp r m).operation_amount = r.operation_amount := by cases m <;> rfl

@[simp] theorem setCp_ocur (r : Record) (m : Option (List Char)) :
    (setCp r m).operation_currency = r.operation_currency := by cases m <;> rfl

@[simp] theorem setCp_type (r : Record) (m : Option (List Char)) :
    (setCp r m).operation_type = r.operation_type := by cases m <;> rfl

@[simp] theorem applyCard_balance (r : Record) (m : Option (List Char)) :
    (applyCard r m).bank_account_balance = r.bank_account_balance := by cases m <;> rfl

@[simp] theorem applyCard_bcur (r : Record) (m : Option (List Char)) :
    (applyCard r m).bank_account_currency = r.bank_account_currency := by cases m <;> rfl

@[simp] theorem applyCard_amount (r : Record) (m : Option (List Char)) :
    (applyCard r m).operation_amount = r.operation_amount := by cases m <;> rfl

@[simp] theorem applyCard_ocur (r : Record) (m : Option (List Char)) :
    (applyCard r m).operation_currency = r.operation_currency := by cases m <;> rfl

@[simp] theorem applyCard_type (r : Record) (m : Option (List Char)) :
    (applyCard r m).operation_type = r.operation_type := by cases m <;> rfl

@[simp] theorem applyCard_cp (r : Record) (m : Option (List Char)) :
    (applyCard r m).counterparty_details = r.counterparty_details := by cases m <;> rfl

theorem pairedA_setCp (r : Record) (m : Option (List Char)) (h : pairedA r) :
    pairedA (setCp r m) := by
  show (setCp r m).operation_amount.isSome = (setCp r m).operation_currency.isSome
  rw [setCp_amount, setCp_ocur]
  exact h

theorem pairedB_setCp (r : Record) (m : Option (List Char)) (h : pairedB r) :
    pairedB (setCp r m) := by
  show (setCp r m).bank_account_balance.isSome = (setCp r m).bank_account_currency.isSome
  rw [setCp_balance, setCp_bcur]
  exact h

theorem setAC_proj (r : Record) (t c : List Char) (r' : Record)
    (h : setAC r t c = some r') :
    r'.operation_type = r.operation_type ∧
    r'.bank_account_balance = r.bank_account_balance ∧
    r'.bank_account_currency = r.bank_account_currency ∧
    r'.bank_account_details = r.bank_account_details ∧
    r'.counterparty_details = r.counterparty_details ∧
    r'.operation_amount = normalize_number t ∧
    r'.operation_currency = some (String.mk c) ∧ pairedA r' := by
  unfold setAC at h
  cases hn : normalize_number t with
  | none => rw [hn] at h; exact absurd h (by simp)
  | some v =>
    rw [hn] at h
    cases h
    exact ⟨rfl, rfl, rfl, rfl, rfl, rfl, rfl, rfl⟩

theorem setBal_proj (r : Record) (t c : List Char) (r' : Record)
    (h : setBal r t c = some r') :
    r'.operation_type = r.operation_type ∧
    r'.operation_amount = r.operation_amount ∧
    r'.operation_currency = r.operation_currency ∧
    r'.bank_account_details = r.bank_account_details ∧
    r'.counterparty_details = r.counterparty_details ∧
    r'.bank_account_balance = normalize_number t ∧
    r'.bank_account_currency = some (String.mk c) ∧ pairedB r' := by
  unfold setBal at h
  cases hn : normalize_number t with
  | none => rw [hn] at h; exact absurd h (by simp)
  | some v =>
    rw [hn] at h
    cases h
    exact ⟨rfl, rfl, rfl, rfl, rfl, rfl, rfl, rfl⟩

theorem applyAC_none (r : Record) : applyAC r none = some r := rfl

theorem applyAC_proj (r : Record) (m : Option (List Char × List Char)) (r' : Record)
    (h : applyAC r m = some r') :
    r'.operation_type = r.operation_type ∧
    r'.bank_account_balance = r.bank_account_balance ∧
    r'.bank_account_currency = r.bank_account_currency ∧
    r'.bank_account_details = r.bank_account_details ∧
    r'.counterparty_details = r.counterparty_details ∧
    (pairedA r → pairedA r') := by
  cases m with
  | none =>
    unfold applyAC at h
    cases h
    exact ⟨rfl, rfl, rfl, rfl, rfl, fun hp => hp⟩
  | some tc =>
    obtain ⟨p1, p2, p3, p4, p5, _, _, p8⟩ := setAC_proj r tc.1 tc.2 r' h
    exact ⟨p1, p2, p3, p4, p5, fun _ => p8⟩

theorem applyBal_proj (r : Record) (m : Option (List Char × List Char)) (r' : Record)
    (h : applyBal r m = some r') :
    r'.operation_type = r.operation_type ∧
    r'.operation_amount = r.operation_amount ∧
    r'.operation_currency = r.operation_currency ∧
    r'.bank_account_details = r.bank_account_details ∧
    r'.counterparty_details = r.counterparty_details ∧
    (pairedB r → pairedB r') := by
  cases m with
  | none =>
    unfold applyBal at h
    cases h
    exact ⟨rfl, rfl, rfl, rfl, rfl, fun hp => hp⟩
  | some tc =>
    obtain ⟨p1, p2, p3, p4, p5, _, _, p8⟩ := setBal_proj r tc.1 tc.2 r' h
    exact ⟨p1, p2, p3, p4, p5, fun _ => p8⟩

theorem parse_balance_info_shape (content title : List Char) (r0 r : Record)
    (h : parse_balance_info content title r0 = some r) :
    r.operation_type = some "balance_info" ∧ r.operation_amount = none ∧
    r.operation_currency = none ∧ r.counterparty_details = none ∧ pairedA r ∧
    (pairedB r0 → pairedB r) := by
  simp only [parse_balance_info, Option.bind_eq_some] at h
  obtain ⟨r1, h1, h2⟩ := h
  obtain ⟨p1, p2, p3, p4, p5, pB⟩ := applyBal_proj _ _ _ h1
  cases h2
  refine ⟨?_, ?_, ?_, ?_, ?_, ?_⟩
  · rw [applyCard_type, p1]
  · rw [applyCard_amount, p2]
  · rw [applyCard_ocur, p3]
  · rw [applyCard_cp, p5]
  · show (applyCard r1 _).operation_amount.isSome = (applyCard r1 _).operation_currency.isSome
    rw [applyCard_amount, applyCard_ocur, p2, p3]
    rfl
  · intro hp
    show (applyCard r1 _).bank_account_balance.isSome = (applyCard r1 _).bank_account_currency.isSome
    rw [applyCard_balance, applyCard_bcur]
    exact pB hp

theorem parse_incoming_shape (content title : List Char) (r0 r : Record)
    (h : parse_incoming content title r0 = some r) :
    r.operation_type = some "in" ∧ (pairedA r0 → pairedA r) ∧ (pairedB r0 → pairedB r) := by
  simp only [parse_incoming] at h
  split at h
  · rw [Option.bind_eq_some] at h
    obtain ⟨r1, h1, h⟩ := h
    rw [Option.bind_eq_some] at h
    obtain ⟨r2, h2, h3⟩ := h
    obtain ⟨a1, a2, a3, a4, a5, aA⟩ := applyAC_proj _ _ _ h1
    obtain ⟨b1, b2, b3, b4, b5, bB⟩ := applyBal_proj _ _ _ h2
    cases h3
    refine ⟨?_, ?_, ?_⟩
    · rw [applyCard_type, b1, a1, setCp_type, setCp_type]
    · intro hp
      show (applyCard r2 _).operation_amount.isSome = (applyCard r2 _).operation_currency.isSome
      rw [applyCard_amount, applyCard_ocur, b2, b3]
      exact aA (pairedA_setCp _ _ (pairedA_setCp _ _ hp))
    · intro hp
      show (applyCard r2 _).bank_account_balance.isSome = (applyCard r2 _).bank_account_currency.isSome
      rw [applyCard_balance, applyCard_bcur]
      refine bB ?_
      show (r1.bank_account_balance).isSome = (r1.bank_account_currency).isSome
      rw [a2, a3]
      exact pairedB_setCp _ _ (pairedB_setCp _ _ hp)
  · split at h
    · rw [Option.bind_eq_some] at h
      obtain ⟨r1, h1, h⟩ := h
      rw [Option.bind_eq_some] at h
      obtain ⟨r2, h2, h3⟩ := h
      obtain ⟨a1, a2, a3, a4, a5, aA⟩ := applyAC_proj _ _ _ h1
      obtain ⟨b1, b2, b3, b4, b5, bB⟩ := applyBal_proj _ _ _ h2
      cases h3
      refine ⟨?_, ?_, ?_⟩
      · rw [setCp_type, applyCard_type, b1, a1]
      · intro hp
        show (setCp _ _).operation_amount.isSome = (setCp _ _).operation_currency.isSome
        rw [setCp_amount, setCp_ocur, applyCard_amount, applyCard_ocur, b2, b3]
        exact aA hp
      · intro hp
        show (setCp _ _).bank_account_balance.isSome = (setCp _ _).bank_account_currency.isSome
        rw [setCp_balance, setCp_bcur, applyCard_balance, applyCard_bcur]
        refine bB ?_
        show (r1.bank_account_balance).isSome = (r1.bank_account_currency).isSome
        rw [a2, a3]
        exact hp
    · cases h
      exact ⟨rfl, fun hp => hp, fun hp => hp⟩

theorem parse_blocking_shape (content : List Char) (r0 r : Record)
    (h : parse_blocking content r0 = some r) :
    r.operation_type = some "reject" ∧ (pairedA r0 → pairedA r) ∧ (pairedB r0 → pairedB r) := by
  simp only [parse_blocking, Option.bind_eq_some] at h
  obtain ⟨r1, h1, r2, h2, h3⟩ := h
  obtain ⟨a1, a2, a3, a4, a5, aA⟩ := applyAC_proj _ _ _ h1
  obtain ⟨b1, b2, b3, b4, b5, bB⟩ := applyBal_proj _ _ _ h2
  cases h3
  refine ⟨?_, ?_, ?_⟩
  · rw [setCp_type, applyCard_type, b1, a1]
  · intro hp
    show (setCp _ _).operation_amount.isSome = (setCp _ _).operation_currency.isSome
    rw [setCp_amount, setCp_ocur, applyCard_amount, applyCard_ocur, b2, b3]
    exact aA hp
  · intro hp
    show (setCp _ _).bank_account_balance.isSome = (setCp _ _).bank_account_currency.isSome
    rw [setCp_balance, setCp_bcur, applyCard_balance, applyCard_bcur]
    refine bB ?_
    show (r1.bank_account_balance).isSome = (r1.bank_account_currency).isSome
    rw [a2, a3]
    exact hp

theorem parse_outgoing_shape (content title : List Char) (r0 r : Record)
    (h : parse_outgoing content title r0 = some r) :
    r.operation_type = some "out" ∧ r.counterparty_details = none ∧
    (pairedA r0 → pairedA r) ∧ (pairedB r0 → pairedB r) := by
  simp only [parse_outgoing, Option.map_eq_some'] at h
  obtain ⟨a, ha, hr⟩ := h
  split at ha
  · simp only [Option.bind_eq_some] at ha
    obtain ⟨r1, h1, r2, h2, h3⟩ := ha
    obtain ⟨a1, a2, a3, a4, a5, aA⟩ := applyAC_proj _ _ _ h1
    obtain ⟨b1, b2, b3, b4, b5, bB⟩ := applyBal_proj _ _ _ h2
    cases h3
    cases hr
    refine ⟨?_, rfl, ?_, ?_⟩
    · show (applyCard r2 _).operation_type = some "out"
      rw [applyCard_type, b1, a1]
    · intro hp
      show (applyCard r2 _).operation_amount.isSome = (applyCard r2 _).operation_currency.isSome
      rw [applyCard_amount, applyCard_ocur, b2, b3]
      exact aA hp
    · intro hp
      show (applyCard r2 _).bank_account_balance.isSome = (applyCard r2 _).bank_account_currency.isSome
      rw [applyCard_balance, applyCard_bcur]
      refine bB ?_
      show (r1.bank_account_balance).isSome = (r1.bank_account_currency).isSome
      rw [a2, a3]
      exact hp
  · simp only [Option.bind_eq_some] at ha
    obtain ⟨r1, h1, r2, h2, h3⟩ := ha
    obtain ⟨a1, a2, a3, a4, a5, aA⟩ := applyAC_proj _ _ _ h1
    obtain ⟨b1, b2, b3, b4, b5, bB⟩ := applyBal_proj _ _ _ h2
    cases h3
    cases hr
    refine ⟨?_, rfl, ?_, ?_⟩
    · show (applyCard r2 _).operation_type = some "out"
      rw [applyCard_type, b1, a1]
    · intro hp
      show (applyCard r2 _).operation_amount.isSome = (applyCard r2 _).operation_currency.isSome
      rw [applyCard_amount, applyCard_ocur, b2, b3]
      exact aA hp
    · intro hp
      show (applyCard r2 _).bank_account_balance.isSome = (applyCard r2 _).bank_account_currency.isSome
      rw [applyCard_balance, applyCard_bcur]
      refine bB ?_
      show (r1.bank_account_balance).isSome = (r1.bank_account_currency).isSome
      rw [a2, a3]
      exact hp

theorem parse_generic_shape (content title : List Char) (r0 r : Record)
    (h : parse_generic content title r0 = some r) :
    r.operation_type = r0.operation_type ∧ r.counterparty_details = r0.counterparty_details ∧
    (pairedA r0 → pairedA r) ∧ (pairedB r0 → pairedB r) := by
  simp only [parse_generic, Option.map_eq_some'] at h
  obtain ⟨a, ha, hr⟩ := h
  cases hr
  split at ha
  · cases ha
    exact ⟨by rw [applyCard_type], by rw [applyCard_cp], fun hp => by
      show (applyCard r0 _).operation_amount.isSome = (applyCard r0 _).operation_currency.isSome
      rw [applyCard_amount, applyCard_ocur]; exact hp, fun hp => by
      show (applyCard r0 _).bank_account_balance.isSome = (applyCard r0 _).bank_account_currency.isSome
      rw [applyCard_balance, applyCard_bcur]; exact hp⟩
  · simp only [Option.bind_eq_some] at ha
    obtain ⟨r1, h1, h2⟩ := ha
    obtain ⟨a1, a2, a3, a4, a5, a6, a7, aA⟩ := setAC_proj _ _ _ _ h1
    have key : a.operation_type = r1.operation_type ∧ a.operation_amount = r1.operation_amount ∧
        a.operation_currency = r1.operation_currency ∧ a.counterparty_details = r1.counterparty_details ∧
        (pairedB r1 → pairedB a) := by
      split at h2
      · split at h2
        · obtain ⟨b1, b2, b3, b4, b5, _, _, bB⟩ := setBal_proj _ _ _ _ h2
          exact ⟨b1, b2, b3, b5, fun _ => bB⟩
        · cases h2
          exact ⟨rfl, rfl, rfl, rfl, fun hp => hp⟩
      · cases h2
        exact ⟨rfl, rfl, rfl, rfl, fun hp => hp⟩
    obtain ⟨k1, k2, k3, k4, kB⟩ := key
    refine ⟨?_, ?_, ?_, ?_⟩
    · rw [applyCard_type, k1, a1]
    · rw [applyCard_cp, k4, a5]
    · intro _
      show (applyCard a _).operation_amount.isSome = (applyCard a _).operation_currency.isSome
      rw [applyCard_amount, applyCard_ocur, k2, k3]
      exact aA
    · intro hp
      show (applyCard a _).bank_account_balance.isSome = (applyCard a _).bank_account_currency.isSome
      rw [applyCard_balance, applyCard_bcur]
      refine kB ?_
      show (r1.bank_account_balance).isSome = (r1.bank_account_currency).isSome
      rw [a2, a3]
      exact hp

/-! ### Claim theorems -/

/-- C1 (amended): for every input triple on which `parse` returns a record,
`operation_type` is one of the four category strings `balance_info`, `in`,
`reject`, `out`, or absent (`none`) - the generic fallback leaves it unset
rather than storing a fifth "generic/unknown" value. -/
theorem c1_operation_type_domain (content app_name title : List Char) (r : Record)
    (h : parse content app_name title = some r) :
    r.operation_type = none ∨ r.operation_type = some "balance_info" ∨
    r.operation_type = some "in" ∨ r.operation_type = some "reject" ∨
    r.operation_type = some "out" := by
  simp only [parse] at h
  split at h
  · exact Or.inr (Or.inl (parse_balance_info_shape _ _ _ _ h).1)
  · split at h
    · exact Or.inr (Or.inr (Or.inl (parse_incoming_shape _ _ _ _ h).1))
    · split at h
      · exact Or.inr (Or.inr (Or.inr (Or.inl (parse_blocking_shape _ _ _ h).1)))
      · split at h
        · exact Or.inr (Or.inr (Or.inr (Or.inr (parse_outgoing_shape _ _ _ _ h).1)))
        · exact Or.inl ((parse_generic_shape _ _ _ _ h).1)

/-- C1 counterexample: on the empty content (a generic-fallback input) `parse`
returns a record whose `operation_type` is `none`, i.e. NOT set to one of the
five enumerated values, refuting "always set, exactly one value". -/
theorem c1_counterexample :
    parse "".toList [] [] = some initRecord ∧ initRecord.operation_type = none :=
  ⟨by decide, rfl⟩

/-- C1 witness: the amended theorem applied at a concrete generic input. -/
theorem c1_witness :
    parse "x".toList [] [] = some initRecord ∧
    (initRecord.operation_type = none ∨ initRecord.operation_type = some "balance_info" ∨
     initRecord.operation_type = some "in" ∨ initRecord.operation_type = some "reject" ∨
     initRecord.operation_type = some "out") :=
  ⟨by decide, c1_operation_type_domain "x".toList [] [] initRecord (by decide)⟩

/-- C2: in every record `parse` returns, `operation_amount` is present iff
`operation_currency` is present, and `bank_account_balance` is present iff
`bank_account_currency` is present. -/
theorem c2_pairing_invariant (content app_name title : List Char) (r : Record)
    (h : parse content app_name title = some r) :
    r.operation_amount.isSome = r.operation_currency.isSome ∧
    r.bank_account_balance.isSome = r.bank_account_currency.isSome := by
  have hA : pairedA initRecord := rfl
  have hB : pairedB initRecord := rfl
  simp only [parse] at h
  split at h
  · obtain ⟨_, _, _, _, hA', hB'⟩ := parse_balance_info_shape _ _ _ _ h
    exact ⟨hA', hB' hB⟩
  · split at h
    · obtain ⟨_, hA', hB'⟩ := parse_incoming_shape _ _ _ _ h
      exact ⟨hA' hA, hB' hB⟩
    · split at h
      · obtain ⟨_, hA', hB'⟩ := parse_blocking_shape _ _ _ h
        exact ⟨hA' hA, hB' hB⟩
      · split at h
        · obtain ⟨_, _, hA', hB'⟩ := parse_outgoing_shape _ _ _ _ h
          exact ⟨hA' hA, hB' hB⟩
        · obtain ⟨_, _, hA', hB'⟩ := parse_generic_shape _ _ _ _ h
          exact ⟨hA' hA, hB' hB⟩

/-- C2 witness: the pairing invariant at a concrete parsed record. -/
theorem c2_witness :
    parse "Надходження: 200.0UAH".toList [] [] =
      some ⟨none, none, none, some (mkRat 2000 10), some "UAH", some "in", none⟩ ∧
    ((some (mkRat 2000 10) : Option ℚ).isSome = (some "UAH" : Option String).isSome ∧
     (none : Option ℚ).isSome = (none : Option String).isSome) :=
  ⟨by decide,
   c2_pairing_invariant "Надходження: 200.0UAH".toList [] []
     ⟨none, none, none, some (mkRat 2000 10), some "UAH", some "in", none⟩ (by decide)⟩

/-- C3 counterexample: the content `"баланс: 100 transfer"` contains the
balance-only marker `"баланс:"` and the transfer keyword `"transfer"` of the
operation-keyword set, yet `parse` classifies it `balance_info` (the first
classifier branch only excludes `"переказ"`). -/
theorem c3_counterexample :
    contains_in (lowerL "баланс: 100 transfer".toList) "баланс:" = true ∧
    contains_in (lowerL "баланс: 100 transfer".toList) "transfer" = true ∧
    parse "баланс: 100 transfer".toList [] [] =
      some ⟨none, none, none, none, none, some "balance_info", none⟩ :=
  ⟨by decide, by decide, by decide⟩

/-- C3 (amended): for every content containing both a balance marker
(`"баланс"`) and the transfer keyword `"переказ"` specifically, `parse` does
not classify the input as `balance_info`. -/
theorem c3_perekaz_excludes_balance_info (content app_name title : List Char) (r : Record)
    (hb : contains_in (lowerL content) "баланс" = true)
    (hp : contains_in (lowerL content) "переказ" = true)
    (h : parse content app_name title = some r) :
    r.operation_type ≠ some "balance_info" := by
  have hbal : is_balance_info_only content title = false := by
    simp [is_balance_info_only, operation_keywords, hp]
  simp only [parse] at h
  split at h
  next hc => rw [hbal] at hc; exact absurd hc (by decide)
  next =>
    split at h
    · rw [(parse_incoming_shape _ _ _ _ h).1]; decide
    · split at h
      · rw [(parse_blocking_shape _ _ _ h).1]; decide
      · split at h
        · rw [(parse_outgoing_shape _ _ _ _ h).1]; decide
        · rw [(parse_generic_shape _ _ _ _ h).1]; decide

/-- C3 witness: the amended exclusion at a concrete content holding both
`"баланс"` and `"переказ"`. -/
theorem c3_witness :
    contains_in (lowerL "баланс: 50 переказ".toList) "баланс" = true ∧
    contains_in (lowerL "баланс: 50 переказ".toList) "переказ" = true ∧
    initRecord.operation_type ≠ some "balance_info" :=
  ⟨by decide, by decide,
   c3_perekaz_excludes_balance_info "баланс: 50 переказ".toList [] [] initRecord
     (by decide) (by decide) (by decide)⟩

/-- C5: the number normalizer equals the reference definition from the spec
(strip space characters, replace every comma with a dot, parse as a decimal;
comma is always a decimal separator), and the three documented examples hold.
-/
theorem c5_normalizer_reference :
    (∀ cs : List Char, normalize_number cs = normalize_ref cs) ∧
    normalize_number "1 250.50".toList = some (1250.50 : ℚ) ∧
    normalize_number "3 500,00".toList = some (3500.00 : ℚ) ∧
    normalize_number "1250,50".toList = some (1250.50 : ℚ) := by
  refine ⟨fun cs => rfl, ?_, ?_, ?_⟩
  · rw [show (1250.50 : ℚ) = mkRat 2501 2 by norm_num [Rat.mkRat_eq_div]]
    decide
  · rw [show (3500.00 : ℚ) = mkRat 3500 1 by norm_num [Rat.mkRat_eq_div]]
    decide
  · rw [show (1250.50 : ℚ) = mkRat 2501 2 by norm_num [Rat.mkRat_eq_div]]
    decide

/-- C7: whenever the classifier selects `balance_info`, the returned record
has `operation_amount`, `operation_currency` and `counterparty_details`
absent, regardless of anything else in the content. -/
theorem c7_balance_info_forces_absent (content app_name title : List Char) (r : Record)
    (h1 : is_balance_info_only content title = true)
    (h2 : parse content app_name title = some r) :
    r.operation_amount = none ∧ r.operation_currency = none ∧
    r.counterparty_details = none := by
  simp only [parse] at h2
  split at h2
  · obtain ⟨_, ha, hc, hcp, _, _⟩ := parse_balance_info_shape _ _ _ _ h2
    exact ⟨ha, hc, hcp⟩
  next hc => exact absurd h1 hc

/-- C7 witness: the spec's own example `parse("Баланс: 1000.00 UAH")` - type
`balance_info`, balance 1000.0 UAH, amount/currency/counterparty absent. -/
theorem c7_witness :
    is_balance_info_only "Баланс: 1000.00 UAH".toList [] = true ∧
    parse "Баланс: 1000.00 UAH".toList [] [] =
      some ⟨some (mkRat 1000 1), some "UAH", none, none, none, some "balance_info", none⟩ ∧
    ((none : Option ℚ) = none ∧ (none : Option String) = none ∧
     (none : Option String) = none) :=
  ⟨by decide, by decide,
   c7_balance_info_forces_absent "Баланс: 1000.00 UAH".toList [] []
     ⟨some (mkRat 1000 1), some "UAH", none, none, none, some "balance_info", none⟩
     (by decide) (by decide)⟩

/-- C8: `app_name` noninterference - `parse` never reads `app_name`, so any
two values of it yield identical records on the same content and title. -/
theorem c8_app_name_noninterference (content title a b : List Char) :
    parse content a title = parse content b title := rfl

/-- C4 counterexample: the content `"баланс: 1\t2 UAH"` makes the balance
pattern capture the numeric token `"1\t2"` (the regex `\s+` separator also
matches a tab), normalization of that token fails, and `parse` returns NO
record at all - the failure aborts the whole record, not just the field. -/
theorem c4_counterexample :
    searchKwsAC ["баланс:"] false "баланс: 1\t2 UAH".toList =
      some ("1\t2".toList, "UAH".toList) ∧
    normalize_number "1\t2".toList = none ∧
    parse "баланс: 1\t2 UAH".toList [] [] = none :=
  ⟨by decide, by decide, by decide⟩

/-- C4 (amended): when a numeric token matched inside the balance field
pattern cannot be parsed after normalization, the error propagates and
aborts the whole `parse` call - no record is returned (the source has no
per-field recovery). -/
theorem c4_numeric_failure_aborts_parse (content app_name title tok cur : List Char)
    (h1 : is_balance_info_only content title = true)
    (h2 : searchKwsAC ["баланс:"] false content = some (tok, cur))
    (h3 : normalize_number tok = none) :
    parse content app_name title = none := by
  simp [parse, parse_balance_info, h1, h2, applyBal, setBal, h3]

/-- C4 witness: the amended theorem at the tab-separated concrete input. -/
theorem c4_witness :
    is_balance_info_only "баланс: 1\t2 UAH".toList [] = true ∧
    parse "баланс: 1\t2 UAH".toList [] [] = none :=
  ⟨by decide,
   c4_numeric_failure_aborts_parse "баланс: 1\t2 UAH".toList [] []
     "1\t2".toList "UAH".toList (by decide) (by decide) (by decide)⟩

/-- C6: for a blocking-classified input whose content matches no
keyword-amount pattern, the first of at least two amount-currency pairs
becomes the operation amount/currency, and with fewer than two pairs both
stay absent. -/
theorem c6_blocking_amount_fallback (content app_name title : List Char) (r : Record)
    (h1 : is_balance_info_only content title = false)
    (h2 : is_incoming content title = false)
    (h3 : is_blocking content = true)
    (h4 : searchKwsAC ["suma", "сума", "amount", "сумма"] true content = none)
    (h : parse content app_name title = some r) :
    (∀ m ms, findAllAC content = m :: ms → 2 ≤ (findAllAC content).length →
      r.operation_amount = normalize_number m.2.1 ∧
      r.operation_currency = some (String.mk m.2.2)) ∧
    ((findAllAC content).length < 2 →
      r.operation_amount = none ∧ r.operation_currency = none) := by
  simp only [parse, h1, h2, h3] at h
  simp at h
  simp only [parse_blocking, h4] at h
  constructor
  · intro m ms hm hlen
    rw [hm] at h hlen
    rw [if_pos hlen] at h
    simp only [List.head?_cons, Option.map_some'] at h
    rw [Option.bind_eq_some] at h
    obtain ⟨r1, hAC, h⟩ := h
    rw [Option.bind_eq_some] at h
    obtain ⟨r2, hBal, hFin⟩ := h
    cases hFin
    have hAC' : setAC _ m.2.1 m.2.2 = some r1 := hAC
    obtain ⟨_, _, _, _, _, a6, a7, _⟩ := setAC_proj _ _ _ _ hAC'
    obtain ⟨_, b2, b3, _, _, _⟩ := applyBal_proj _ _ _ hBal
    constructor
    · rw [setCp_amount, applyCard_amount, b2, a6]
    · rw [setCp_ocur, applyCard_ocur, b3, a7]
  · intro hlen
    rw [if_neg (by omega)] at h
    rw [Option.bind_eq_some] at h
    obtain ⟨r1, hAC, h⟩ := h
    rw [applyAC_none] at hAC
    cases hAC
    rw [Option.bind_eq_some] at h
    obtain ⟨r2, hBal, hFin⟩ := h
    obtain ⟨_, b2, b3, _, _, _⟩ := applyBal_proj _ _ _ hBal
    cases hFin
    constructor
    · rw [setCp_amount, applyCard_amount, b2]; rfl
    · rw [setCp_ocur, applyCard_ocur, b3]; rfl

/-- C6 witness: a blocking content with two amount-currency pairs and no
keyword-amount match; the first pair becomes the operation amount/currency.
-/
theorem c6_witness :
    is_blocking "reject 10.00UAH 20.00UAH".toList = true ∧
    ((⟨none, none, none, some (mkRat 1000 100), some "UAH", some "reject", none⟩ :
        Record).operation_amount = normalize_number "10.00".toList ∧
     (⟨none, none, none, some (mkRat 1000 100), some "UAH", some "reject", none⟩ :
        Record).operation_currency = some (String.mk "UAH".toList)) :=
  ⟨by decide,
   (c6_blocking_amount_fallback "reject 10.00UAH 20.00UAH".toList [] []
     ⟨none, none, none, some (mkRat 1000 100), some "UAH", some "reject", none⟩
     (by decide) (by decide) (by decide) (by decide) (by decide)).1
     (7, "10.00".toList, "UAH".toList) [(16, "20.00".toList, "UAH".toList)]
     (by decide) (by decide)⟩

/-- C10: a content containing `"perekaz"` but neither `"perekaz:"`,
`"доступно:"`, `"надходження:"` nor `"баланс"`, with a title lacking
`"надходження"`, is classified `in` and every other field stays absent -
no extraction is attempted on that path. -/
theorem c10_bare_perekaz_minimal_record (content app_name title : List Char)
    (h1 : contains_in (lowerL content) "perekaz" = true)
    (h2 : contains_in (lowerL content) "perekaz:" = false)
    (h3 : contains_in (lowerL content) "доступно:" = false)
    (h4 : contains_in (lowerL content) "надходження:" = false)
    (h5 : contains_in (lowerL content) "баланс" = false)
    (h6 : contains_in (lowerL title) "надходження" = false) :
    parse content app_name title =
      some { initRecord with operation_type := some "in" } := by
  have hbc : contains_in (lowerL content) "баланс:" = false := by
    cases hc : contains_in (lowerL content) "баланс:"
    · rfl
    · have hm := hasSub_mono "баланс".toList "баланс:".toList (by decide) (lowerL content) hc
      rw [contains_in] at h5
      rw [hm] at h5
      exact absurd h5 (by decide)
  have hbal : is_balance_info_only content title = false := by
    simp [is_balance_info_only, hbc, h5]
  have hinc : is_incoming content title = true := by
    simp only [is_incoming, List.any_eq_true]
    refine ⟨"perekaz", by simp [incoming_keywords], by simp [h1]⟩
  simp only [parse, hbal, hinc]
  simp only [parse_incoming, h2, h3, h4, h6]
  simp

/-- C10 witness: a bare-`perekaz` content with matchable amount text that is
nevertheless left unextracted. -/
theorem c10_witness :
    contains_in (lowerL "perekaz na sumu 100.00UAH".toList) "perekaz" = true ∧
    parse "perekaz na sumu 100.00UAH".toList [] [] =
      some { initRecord with operation_type := some "in" } :=
  ⟨by decide,
   c10_bare_perekaz_minimal_record "perekaz na sumu 100.00UAH".toList [] []
     (by decide) (by decide) (by decide) (by decide) (by decide) (by decide)⟩

theorem isDigit_ne_space {c : Char} (h : c.isDigit = true) : c ≠ ' ' := by
  intro he
  subst he
  exact absurd h (by decide)

theorem isDigit_ne_comma {c : Char} (h : c.isDigit = true) : c ≠ ',' := by
  intro he
  subst he
  exact absurd h (by decide)

theorem commaToDot_cons (c : Char) (l : List Char) :
    commaToDot (c :: l) = (if c = ',' then '.' else c) :: commaToDot l := rfl

theorem commaToDot_append (l₁ l₂ : List Char) :
    commaToDot (l₁ ++ l₂) = commaToDot l₁ ++ commaToDot l₂ := List.map_append _ _ _

theorem commaToDot_digits : ∀ l : List Char, (∀ c ∈ l, c.isDigit = true) → commaToDot l = l := by
  intro l
  induction l with
  | nil => intro _; rfl
  | cons x xs ih =>
    intro h
    rw [commaToDot_cons, if_neg (isDigit_ne_comma (h x (List.mem_cons_self _ _))),
      ih (fun c hc => h c (List.mem_cons_of_mem _ hc))]

theorem takeWhile_dropWhile_all {p : Char → Bool} :
    ∀ l : List Char, (∀ a ∈ l, p a = true) → l.takeWhile p = l ∧ l.dropWhile p = [] := by
  intro l
  induction l with
  | nil => intro _; exact ⟨rfl, rfl⟩
  | cons x xs ih =>
    intro h
    obtain ⟨t, d⟩ := ih (fun a ha => h a (List.mem_cons_of_mem _ ha))
    have hx := h x (List.mem_cons_self _ _)
    constructor
    · simp [List.takeWhile_cons, hx, t]
    · simp [List.dropWhile_cons, hx, d]

theorem takeWhile_dropWhile_append_stop {p : Char → Bool} (y : Char) (l₂ : List Char)
    (hy : p y = false) :
    ∀ l₁ : List Char, (∀ a ∈ l₁, p a = true) →
      (l₁ ++ y :: l₂).takeWhile p = l₁ ∧ (l₁ ++ y :: l₂).dropWhile p = y :: l₂ := by
  intro l₁
  induction l₁ with
  | nil =>
    intro _
    constructor <;> simp [List.takeWhile_cons, List.dropWhile_cons, hy]
  | cons x xs ih =>
    intro h
    obtain ⟨t, d⟩ := ih (fun a ha => h a (List.mem_cons_of_mem _ ha))
    have hx := h x (List.mem_cons_self _ _)
    constructor
    · simp [List.takeWhile_cons, hx, t]
    · simp [List.dropWhile_cons, hx, d]

theorem amountGroups_chars (fuel : Nat) : ∀ (cs : List Char) (c : Char),
    c ∈ (amountGroups fuel cs).1 → pyIsSpace c = true ∨ c.isDigit = true := by
  induction fuel with
  | zero => intro cs c hc; simp [amountGroups] at hc
  | succ n ih =>
    intro cs c hc
    simp only [amountGroups] at hc
    split at hc
    · simp at hc
    · simp only [List.append_assoc, List.mem_append] at hc
      rcases hc with hc | hc | hc
      · exact Or.inl (List.mem_takeWhile_imp hc)
      · exact Or.inr (List.mem_takeWhile_imp hc)
      · exact ih _ c hc

theorem stripSpaces_cons_keep {x : Char} (xs : List Char) (h : x ≠ ' ') :
    stripSpaces (x :: xs) = x :: stripSpaces xs := by
  simp [stripSpaces, List.filter_cons, h]

theorem stripSpaces_cons_drop (xs : List Char) :
    stripSpaces (' ' :: xs) = stripSpaces xs := by
  simp [stripSpaces, List.filter_cons]

theorem commaToDot_stripSpaces_digits :
    ∀ l : List Char, (∀ c ∈ l, c.isDigit = true ∨ c = ' ') →
      commaToDot (stripSpaces l) = l.filter Char.isDigit := by
  intro l
  induction l with
  | nil => intro _; rfl
  | cons x xs ih =>
    intro h
    have hxs := ih (fun c hc => h c (List.mem_cons_of_mem _ hc))
    rcases h x (List.mem_cons_self _ _) with hx | hx
    · have h1 : x ≠ ' ' := isDigit_ne_space hx
      have h2 : x ≠ ',' := isDigit_ne_comma hx
      rw [stripSpaces_cons_keep xs h1, commaToDot_cons, if_neg h2, hxs,
        List.filter_cons, if_pos hx]
    · subst hx
      rw [stripSpaces_cons_drop, hxs, List.filter_cons, if_neg (by decide)]

theorem pyFloat?_digits (D : List Char) (hD : ∀ c ∈ D, c.isDigit = true) (hne : D ≠ []) :
    (pyFloat? D).isSome = true := by
  obtain ⟨tw, dw⟩ := takeWhile_dropWhile_all D hD
  simp only [pyFloat?, tw, dw]
  cases D with
  | nil => exact absurd rfl hne
  | cons x xs => simp

theorem pyFloat?_digits_frac (D F : List Char) (hD : ∀ c ∈ D, c.isDigit = true) (hne : D ≠ [])
    (hF : ∀ c ∈ F, c.isDigit = true) :
    (pyFloat? (D ++ '.' :: F)).isSome = true := by
  obtain ⟨tw, dw⟩ := takeWhile_dropWhile_append_stop '.' F (by decide) D hD
  have hFall : F.all Char.isDigit = true := List.all_eq_true.mpr (fun c hc => hF c hc)
  simp only [pyFloat?, tw, dw]
  cases D with
  | nil => exact absurd rfl hne
  | cons x xs => simp [hFall]

theorem normalize_token_parts (d1 g : List Char)
    (hd1 : ∀ c ∈ d1, c.isDigit = true) (hd1ne : d1 ≠ [])
    (hg : ∀ c ∈ g, c.isDigit = true ∨ c = ' ') :
    (normalize_number (d1 ++ g)).isSome = true ∧
    (∀ sep fr, sep = '.' ∨ sep = ',' → (∀ c ∈ fr, c.isDigit = true) →
      (normalize_number (d1 ++ g ++ sep :: fr)).isSome = true) := by
  have hall : ∀ c ∈ d1 ++ g, c.isDigit = true ∨ c = ' ' := by
    intro c hc
    rcases List.mem_append.mp hc with hc | hc
    · exact Or.inl (hd1 c hc)
    · exact hg c hc
  have hfilter : (d1 ++ g).filter Char.isDigit = d1 ++ g.filter Char.isDigit := by
    rw [List.filter_append, List.filter_eq_self.mpr hd1]
  have hDdig : ∀ c ∈ d1 ++ g.filter Char.isDigit, c.isDigit = true := by
    intro c hc
    rcases List.mem_append.mp hc with hc | hc
    · exact hd1 c hc
    · exact (List.mem_filter.mp hc).2
  have hDne : d1 ++ g.filter Char.isDigit ≠ [] := by
    intro he
    exact hd1ne (List.append_eq_nil.mp he).1
  constructor
  · simp only [normalize_number]
    rw [commaToDot_stripSpaces_digits _ hall, hfilter]
    exact pyFloat?_digits _ hDdig hDne
  · intro sep fr hsep hfr
    have hsepsp : sep ≠ ' ' := by rcases hsep with h | h <;> subst h <;> decide
    have e1 : stripSpaces (d1 ++ g ++ sep :: fr) =
        stripSpaces (d1 ++ g) ++ stripSpaces (sep :: fr) := by
      simp only [stripSpaces, List.filter_append]
    have e0 : stripSpaces fr = fr := by
      simp only [stripSpaces]
      exact List.filter_eq_self.mpr fun c hc => decide_eq_true (isDigit_ne_space (hfr c hc))
    have e2 : stripSpaces (sep :: fr) = sep :: fr := by
      rw [stripSpaces_cons_keep fr hsepsp, e0]
    have e3 : commaToDot (sep :: fr) = '.' :: fr := by
      rw [commaToDot_cons, commaToDot_digits fr hfr]
      rcases hsep with h | h <;> subst h <;> rfl
    simp only [normalize_number]
    rw [e1, e2, commaToDot_append, e3, commaToDot_stripSpaces_digits _ hall, hfilter]
    exact pyFloat?_digits_frac _ _ hDdig hDne hfr

/-- C9 counterexample: the amount pattern's `\s+` separator also matches a
tab, the captured token `"1\t2"` fails normalization (only true spaces are
removed), and `parse` raises (returns no record) on a content holding such a
token - so the normalizer's failure branch IS reachable from `parse`. -/
theorem c9_counterexample :
    matchAmount "1\t2UAH".toList = some ("1\t2".toList, "UAH".toList) ∧
    normalize_number "1\t2".toList = none ∧
    parse "1\t2UAH".toList [] [] = none :=
  ⟨by decide, by decide, by decide⟩

/-- C9 (amended): every token captured by the amount pattern in which each
whitespace separator character is an actual ASCII space remains a valid
decimal literal after normalization; the failure branch is reachable only
through non-space whitespace (tab/newline) inside a token. -/
theorem c9_space_separated_tokens_normalize (cs tok rest : List Char)
    (h : matchAmount cs = some (tok, rest))
    (hsp : ∀ c ∈ tok, pyIsSpace c = true → c = ' ') :
    (normalize_number tok).isSome = true := by
  simp only [matchAmount] at h
  split at h
  · simp at h
  next hcne =>
    have hd1 : ∀ c ∈ cs.takeWhile Char.isDigit, c.isDigit = true :=
      fun c hc => List.mem_takeWhile_imp hc
    have hd1ne : cs.takeWhile Char.isDigit ≠ [] := by
      intro he
      exact hcne (by rw [he]; rfl)
    split at h
    next sep rest2 heq =>
      split at h
      next hsepb =>
        split at h
        next hfre =>
          simp only [Option.some.injEq, Prod.mk.injEq] at h
          obtain ⟨htok, _⟩ := h
          subst htok
          refine (normalize_token_parts _ _ hd1 hd1ne ?_).1
          intro c hc
          rcases amountGroups_chars _ _ c hc with hs | hd
          · exact Or.inr (hsp c (List.mem_append.mpr (Or.inr hc)) hs)
          · exact Or.inl hd
        next hfre =>
          simp only [Option.some.injEq, Prod.mk.injEq] at h
          obtain ⟨htok, _⟩ := h
          subst htok
          refine (normalize_token_parts _ _ hd1 hd1ne ?_).2 sep _ ?_ ?_
          · intro c hc
            rcases amountGroups_chars _ _ c hc with hs | hd
            · refine Or.inr (hsp c ?_ hs)
              exact List.mem_append.mpr (Or.inl (List.mem_append.mpr (Or.inr hc)))
            · exact Or.inl hd
          · simpa using hsepb
          · exact fun c hc => List.mem_takeWhile_imp hc
      next hsepb =>
        simp only [Option.some.injEq, Prod.mk.injEq] at h
        obtain ⟨htok, _⟩ := h
        subst htok
        refine (normalize_token_parts _ _ hd1 hd1ne ?_).1
        intro c hc
        rcases amountGroups_chars _ _ c hc with hs | hd
        · exact Or.inr (hsp c (List.mem_append.mpr (Or.inr hc)) hs)
        · exact Or.inl hd
    next heq =>
      simp only [Option.some.injEq, Prod.mk.injEq] at h
      obtain ⟨htok, _⟩ := h
      subst htok
      refine (normalize_token_parts _ _ hd1 hd1ne ?_).1
      intro c hc
      rcases amountGroups_chars _ _ c hc with hs | hd
      · exact Or.inr (hsp c (List.mem_append.mpr (Or.inr hc)) hs)
      · exact Or.inl hd

/-- C9 witness: a space-separated comma-decimal token captured by the amount
pattern normalizes successfully. -/
theorem c9_witness :
    matchAmount "3 500,00PLN".toList = some ("3 500,00".toList, "PLN".toList) ∧
    (normalize_number "3 500,00".toList).isSome = true :=
  ⟨by decide,
   c9_space_separated_tokens_normalize "3 500,00PLN".toList "3 500,00".toList "PLN".toList
     (by decide) (by decide)⟩

end BankParser
